import Mathlib

/-!
Verification of the genesis-frontend graph viewer.

Shallow embedding of the core of `src/services/genesis-frontend`:
the merge engine (`addGraphData` in `lib/store.ts`), the viewport /
zoom controller and hit tester (`components/GraphCanvas.tsx`), the
expansion re-entrancy guard (`handleClick` plus the store flags), and
the `PhysicsEngine` wrapper around a d3-force simulation
(`lib/physics`).  Numbers are modelled as rationals; JavaScript string
keys stay `String`.
-/

namespace Genesis

/-- `Node.type` variants from `lib/store.ts` (line 8). -/
inductive NodeType
  | today
  | cited
  | expanded
  | center
deriving DecidableEq, Repr

/-- A graph node, `interface Node` in `lib/store.ts` (lines 3-20).
Optional TS fields become `Option`.  The pin fields `fx`, `fy` are
`number | null | undefined` in TS; `null` and `undefined` behave
identically for d3 pinning, so both map to `none`. -/
structure Node where
  id : String
  title : Option String := none
  summary : Option String := none
  domain : Option String := none
  type : NodeType
  first_author : Option String := none
  author_count : Option Nat := none
  year : Option String := none
  key_contributions : Option (List String) := none
  methodology : Option String := none
  x : Option ℚ := none
  y : Option ℚ := none
  fx : Option ℚ := none
  fy : Option ℚ := none
  vx : Option ℚ := none
  vy : Option ℚ := none
deriving DecidableEq, Repr

/-- A link endpoint, `string | Node` in `lib/store.ts` (lines 23-24). -/
inductive NodeRef
  | str (id : String)
  | node (n : Node)
deriving DecidableEq, Repr

/-- `Link.type` has the single variant CITES (`lib/store.ts` line 25). -/
inductive LinkType
  | CITES
deriving DecidableEq, Repr

/-- `interface Link` from `lib/store.ts` (lines 22-26). -/
structure Link where
  source : NodeRef
  target : NodeRef
  type : LinkType := .CITES
deriving DecidableEq, Repr

/-- `interface GraphData` from `lib/store.ts` (lines 28-31). -/
structure GraphData where
  nodes : List Node
  links : List Link
deriving DecidableEq, Repr

/-- The id of a link endpoint:
`typeof l.source === 'string' ? l.source : l.source.id`
(`lib/store.ts` lines 98, 102). -/
def NodeRef.refId : NodeRef → String
  | .str s => s
  | .node n => n.id

/-- The deduplication key of a link, the template string
`sourceId ++ "-" ++ targetId` built in `addGraphData`
(`lib/store.ts` lines 98, 102). -/
def linkKey (l : Link) : String :=
  l.source.refId ++ "-" ++ l.target.refId

/-- `addGraphData` from `lib/store.ts` (lines 95-112).  The JS `Set`s of
existing node ids and link keys are modelled as the corresponding lists
with `contains` membership (identical semantics for membership tests). -/
def addGraphData (current incoming : GraphData) : GraphData :=
  let existingNodeIds := current.nodes.map Node.id
  let existingLinks := current.links.map linkKey
  let newNodes := incoming.nodes.filter (fun n => !(existingNodeIds.contains n.id))
  let newLinks := incoming.links.filter (fun l => !(existingLinks.contains (linkKey l)))
  { nodes := current.nodes ++ newNodes, links := current.links ++ newLinks }

/-- Every link endpoint of `g` resolves to a node id of `g`. -/
def noDanglingLinks (g : GraphData) : Prop :=
  ∀ l ∈ g.links,
    (∃ n ∈ g.nodes, n.id = l.source.refId) ∧ (∃ n ∈ g.nodes, n.id = l.target.refId)

instance (g : GraphData) : Decidable (noDanglingLinks g) := by
  unfold noDanglingLinks; infer_instance

/-- Membership in a mapped list of keys, as a boolean, agrees with the
propositional statement that no element of the original list has that key. -/
theorem not_contains_map_eq {α : Type} (f : α → String) (xs : List α) (s : String) :
    (!((xs.map f).contains s)) = decide (∀ m ∈ xs, f m ≠ s) := by
  induction xs with
  | nil => rfl
  | cons a l ih =>
    simp only [List.map_cons, List.contains_cons, Bool.not_or, ih, List.forall_mem_cons,
      Bool.decide_and]
    congr 1
    by_cases h : f a = s
    · subst h; simp
    · have hs : (s == f a) = false := beq_eq_false_iff_ne.mpr (fun hs => h hs.symm)
      simp [hs, h]

/-- The new-node filter of `addGraphData` keeps exactly the incoming nodes
whose id differs from every existing node's id. -/
theorem newNodes_filter_eq (cur : GraphData) (ns : List Node) :
    ns.filter (fun n => !((cur.nodes.map Node.id).contains n.id))
      = ns.filter (fun n => decide (∀ m ∈ cur.nodes, m.id ≠ n.id)) :=
  List.filter_congr (fun n _ => not_contains_map_eq Node.id cur.nodes n.id)

/-- The new-link filter of `addGraphData` keeps exactly the incoming links
whose key differs from every existing link's key. -/
theorem newLinks_filter_eq (cur : GraphData) (ls : List Link) :
    ls.filter (fun l => !((cur.links.map linkKey).contains (linkKey l)))
      = ls.filter (fun l => decide (∀ m ∈ cur.links, linkKey m ≠ linkKey l)) :=
  List.filter_congr (fun l _ => not_contains_map_eq linkKey cur.links (linkKey l))

/-- Scenario data for the §8 merge scenario: nodes A, B, C and the
links A→B, A→C, all endpoints given as raw ids. -/
def nodeA : Node := { id := "A", type := .today }

def nodeB : Node := { id := "B", type := .cited }

def nodeC : Node := { id := "C", type := .cited }

def linkAB : Link := { source := .str "A", target := .str "B" }

def linkAC : Link := { source := .str "A", target := .str "C" }

/-- Existing graph whose only link joins the ids "a-b" and "c": its
dedup key is the string "a-b-c". -/
def hyphenExisting : GraphData :=
  { nodes := [], links := [{ source := .str "a-b", target := .str "c" }] }

/-- Incoming graph whose only link joins the ids "a" and "b-c": a new
ordered (source,target) pair, but the same key string "a-b-c". -/
def hyphenIncoming : GraphData :=
  { nodes := [], links := [{ source := .str "a", target := .str "b-c" }] }

/-- C1 counterexample: the ordered pair ("a","b-c") occurs in no existing
link, yet merging drops the incoming link carrying it, because link
deduplication uses the concatenated string key source++"-"++target and the
existing ("a-b","c") link has the same key "a-b-c".  So the merged link
list is not "existing links followed by the incoming links whose ordered
(source,target) pair is not already present". -/
theorem addGraphData_pair_dedup_counterexample :
    (∀ l ∈ hyphenExisting.links, (l.source.refId, l.target.refId) ≠ ("a", "b-c")) ∧
    (addGraphData hyphenExisting hyphenIncoming).links = hyphenExisting.links := by
  decide

/-- C1 (amended): the merged node list is the existing node list, order
preserved and existing entries winning on id collision, followed by the
incoming nodes whose ids were not already present, in arrival order; the
merged link list is the existing links followed by the incoming links
whose dedup key (the string source++"-"++target) was not already present.
The {A,B}+{B,C} scenario merges to {A,B,C} with links {A→B, A→C} and no
duplicate of A→B. -/
theorem addGraphData_spec (cur inc : GraphData) :
    (addGraphData cur inc).nodes
      = cur.nodes ++ inc.nodes.filter (fun n => decide (∀ m ∈ cur.nodes, m.id ≠ n.id)) ∧
    (addGraphData cur inc).links
      = cur.links ++ inc.links.filter (fun l => decide (∀ m ∈ cur.links, linkKey m ≠ linkKey l)) ∧
    addGraphData { nodes := [nodeA, nodeB], links := [linkAB] }
        { nodes := [nodeB, nodeC], links := [linkAC] }
      = { nodes := [nodeA, nodeB, nodeC], links := [linkAB, linkAC] } := by
  refine ⟨?_, ?_, by decide⟩
  · show cur.nodes ++ _ = _
    rw [newNodes_filter_eq]
  · show cur.links ++ _ = _
    rw [newLinks_filter_eq]

/-- C2: merging a graph with itself gives the graph back unchanged, a
merge never removes an entry (the previous node and link lists survive as
a prefix of the result), and node/link counts are monotonically
non-decreasing across any merge. -/
theorem addGraphData_idempotent_monotone :
    (∀ G : GraphData, addGraphData G G = G) ∧
    (∀ cur inc : GraphData,
      cur.nodes.length ≤ (addGraphData cur inc).nodes.length ∧
      cur.links.length ≤ (addGraphData cur inc).links.length ∧
      (∃ appended, (addGraphData cur inc).nodes = cur.nodes ++ appended) ∧
      (∃ appended, (addGraphData cur inc).links = cur.links ++ appended)) := by
  constructor
  · intro G
    have hn : G.nodes.filter (fun n => !((G.nodes.map Node.id).contains n.id)) = [] := by
      rw [newNodes_filter_eq]
      refine List.filter_eq_nil_iff.mpr (fun n hn => ?_)
      simp only [decide_eq_true_eq]
      exact fun hall => hall n hn rfl
    have hl : G.links.filter (fun l => !((G.links.map linkKey).contains (linkKey l))) = [] := by
      rw [newLinks_filter_eq]
      refine List.filter_eq_nil_iff.mpr (fun l hl => ?_)
      simp only [decide_eq_true_eq]
      exact fun hall => hall l hl rfl
    show GraphData.mk (G.nodes ++ _) (G.links ++ _) = G
    rw [hn, hl, List.append_nil, List.append_nil]
  · intro cur inc
    refine ⟨?_, ?_, ⟨_, rfl⟩, ⟨_, rfl⟩⟩
    · show cur.nodes.length ≤ (cur.nodes ++ _).length
      rw [List.length_append]
      exact Nat.le_add_right _ _
    · show cur.links.length ≤ (cur.links ++ _).length
      rw [List.length_append]
      exact Nat.le_add_right _ _

/-- A link between two ids that occur in no node of the graph. -/
def danglingLink : Link := { source := .str "X", target := .str "Y" }

/-- C3 counterexample: merging an incoming graph that carries a link whose
endpoints resolve to no node produces a merged graph containing that
dangling link — the Merge Engine does not reject it. -/
theorem addGraphData_admits_dangling :
    ¬ noDanglingLinks
        (addGraphData { nodes := [], links := [] }
          { nodes := [], links := [danglingLink] }) := by
  decide

/-- C3 (amended): `addGraphData` performs no endpoint validation at all —
the merged link list is computed from the link lists alone, independent of
either node set, and in particular a dangling link is admitted verbatim. -/
theorem addGraphData_links_ignore_nodes :
    (∀ (ns1 ns2 : List Node) (ls1 ls2 : List Link),
      (addGraphData { nodes := ns1, links := ls1 } { nodes := ns2, links := ls2 }).links
        = (addGraphData { nodes := [], links := ls1 } { nodes := [], links := ls2 }).links) ∧
    (addGraphData { nodes := [], links := [] } { nodes := [], links := [danglingLink] }).links
      = [danglingLink] :=
  ⟨fun _ _ _ _ => rfl, by decide⟩

/-- C10: a merge leaves every already-present node and link entry entirely
unmodified — the previous node list is exactly the first
`cur.nodes.length` entries of the result (same entries, all fields
unchanged, same order), likewise for links, and everything appended after
that prefix comes from the incoming graph. -/
theorem addGraphData_frame (cur inc : GraphData) :
    (addGraphData cur inc).nodes.take cur.nodes.length = cur.nodes ∧
    (addGraphData cur inc).links.take cur.links.length = cur.links ∧
    (∃ appended, (addGraphData cur inc).nodes = cur.nodes ++ appended
      ∧ appended ⊆ inc.nodes) ∧
    (∃ appended, (addGraphData cur inc).links = cur.links ++ appended
      ∧ appended ⊆ inc.links) := by
  refine ⟨List.take_left _ _, List.take_left _ _, ⟨_, rfl, ?_⟩, ⟨_, rfl, ?_⟩⟩
  · exact List.filter_subset' _
  · exact List.filter_subset' _

/-- The viewport transform `{ k, tx, ty }` held in the `view` state of
`GraphCanvas.tsx` (line 43). -/
structure View where
  k : ℚ
  tx : ℚ
  ty : ℚ
deriving DecidableEq, Repr

/-- Lower zoom bound, the `0.3` literal of `GraphCanvas.tsx` lines 392, 484. -/
def kMin : ℚ := 3 / 10

/-- Upper zoom bound, the `5` literal of `GraphCanvas.tsx` lines 392, 484. -/
def kMax : ℚ := 5

/-- One zoom step, `GraphCanvas.tsx` lines 391-397 (wheel) and the
identical lines 482-489 (two-finger pinch).  `factor` is the multiplier
the caller derived (`exp(-delta*0.01)`, `exp(-delta*0.002)` for wheel, or
the pinch distance ratio); `px`, `py` is the pointer offset from the
canvas center.  The new scale is clamped into `[kMin, kMax]` and the
translate is shifted by `p * (1 - newK/k)`. -/
def zoomUpdate (v : View) (factor px py : ℚ) : View :=
  let newK := max kMin (min kMax (v.k * factor))
  let scale := newK / v.k
  { k := newK, tx := v.tx + px * (1 - scale), ty := v.ty + py * (1 - scale) }

/-- Screen x of a world x under the viewport transform, from the render
pass `centerX + tx + node.x * k` (`GraphCanvas.tsx` lines 126, 156, 271). -/
def screenX (w : ℚ) (v : View) (x : ℚ) : ℚ := w / 2 + v.tx + x * v.k

/-- Screen y of a world y under the viewport transform (`GraphCanvas.tsx`
lines 127, 157, 272). -/
def screenY (h : ℚ) (v : View) (y : ℚ) : ℚ := h / 2 + v.ty + y * v.k

/-- The world x under a pointer at offset `px` from the canvas center:
the inverse of `screenX` with the center already subtracted. -/
def worldAtPointerX (v : View) (px : ℚ) : ℚ := (px - v.tx) / v.k

/-- The world y under a pointer at offset `py` from the canvas center. -/
def worldAtPointerY (v : View) (py : ℚ) : ℚ := (py - v.ty) / v.k

/-- C4: after any zoom step — whatever the previous viewport, the zoom
factor, or the pointer position — the resulting scale lies in
`[kMin, kMax] = [0.3, 5]`. -/
theorem zoom_scale_clamped (v : View) (factor px py : ℚ) :
    kMin ≤ (zoomUpdate v factor px py).k ∧ (zoomUpdate v factor px py).k ≤ kMax := by
  refine ⟨le_max_left _ _, max_le ?_ (min_le_left _ _)⟩
  show (3 : ℚ) / 10 ≤ 5
  norm_num

/-- C5 counterexample: with viewport k = 1 panned to tx = 100 and the
pointer at the canvas center (offset 0), a factor-2 zoom step keeps
tx = 100 while k becomes 2: the world x under the pointer jumps from
-100 to -50, a drift of 50 world units — the translate update does not
keep the world coordinate under the pointer fixed. -/
theorem zoom_to_point_counterexample :
    (zoomUpdate ⟨1, 100, 0⟩ 2 0 0).k = 2 ∧
    (zoomUpdate ⟨1, 100, 0⟩ 2 0 0).tx = 100 ∧
    worldAtPointerX ⟨1, 100, 0⟩ 0 = -100 ∧
    worldAtPointerX (zoomUpdate ⟨1, 100, 0⟩ 2 0 0) 0 = -50 := by
  refine ⟨?_, ?_, ?_, ?_⟩ <;> norm_num [zoomUpdate, worldAtPointerX, kMin, kMax]

/-- C5 (amended): when the viewport has not been panned (translate is
zero) and the current scale is positive, the translate update
`new_translate = old_translate + p * (1 - newK/k)` does keep the world
coordinate under the pointer exactly fixed across the zoom step; with a
nonzero translate it drifts, as the counterexample shows. -/
theorem zoom_to_point_of_translate_zero (v : View) (factor px py : ℚ)
    (hk : 0 < v.k) (htx : v.tx = 0) (hty : v.ty = 0) :
    worldAtPointerX (zoomUpdate v factor px py) px = worldAtPointerX v px ∧
    worldAtPointerY (zoomUpdate v factor px py) py = worldAtPointerY v py := by
  have hkMin : (0 : ℚ) < kMin := by norm_num [kMin]
  have hnewK : 0 < max kMin (min kMax (v.k * factor)) := lt_max_of_lt_left hkMin
  constructor
  · show (px - (v.tx + px * (1 - max kMin (min kMax (v.k * factor)) / v.k)))
        / max kMin (min kMax (v.k * factor)) = (px - v.tx) / v.k
    rw [htx]
    field_simp
    ring
  · show (py - (v.ty + py * (1 - max kMin (min kMax (v.k * factor)) / v.k)))
        / max kMin (min kMax (v.k * factor)) = (py - v.ty) / v.k
    rw [hty]
    field_simp
    ring

/-- Witness for `zoom_to_point_of_translate_zero` at the concrete
viewport k = 1, no pan, factor 2, pointer offset (10, 4). -/
theorem zoom_to_point_of_translate_zero_witness :
    worldAtPointerX (zoomUpdate ⟨1, 0, 0⟩ 2 10 4) 10 = worldAtPointerX ⟨1, 0, 0⟩ 10 ∧
    worldAtPointerY (zoomUpdate ⟨1, 0, 0⟩ 2 10 4) 4 = worldAtPointerY ⟨1, 0, 0⟩ 4 :=
  zoom_to_point_of_translate_zero ⟨1, 0, 0⟩ 2 10 4 (by norm_num) rfl rfl

/-- Base render radius by node variant: 15 for today, 20 for center,
8 otherwise (`GraphCanvas.tsx` lines 160-162 and 273-275). -/
def baseRadius (t : NodeType) : ℚ :=
  match t with
  | .today => 15
  | .center => 20
  | _ => 8

/-- The zoom-clamped radius scale `0.6 + 0.4 * max(0.5, min(2, k))`
(`GraphCanvas.tsx` lines 164 and 276). -/
def zoomRadiusScale (k : ℚ) : ℚ := 6 / 10 + 4 / 10 * max (1 / 2) (min 2 k)

/-- The bounded author-count radius bonus of the render pass
(`GraphCanvas.tsx` line 163): `if (node.author_count) radius +=
Math.min(node.author_count * 0.5, 8)`; the truthiness test makes a zero
count add nothing. -/
def authorBonus (n : Node) : ℚ :=
  match n.author_count with
  | some c => if c = 0 then 0 else min ((c : ℚ) * (1 / 2)) 8
  | none => 0

/-- The radius the renderer draws a node with (`GraphCanvas.tsx` lines
160-164): variant base radius plus author bonus, then zoom-scaled. -/
def renderRadius (n : Node) (k : ℚ) : ℚ :=
  (baseRadius n.type + authorBonus n) * zoomRadiusScale k

/-- The radius the hit test uses (`GraphCanvas.tsx` lines 273-276):
variant base radius only, zoom-scaled — no author bonus. -/
def hitRadius (n : Node) (k : ℚ) : ℚ := baseRadius n.type * zoomRadiusScale k

/-- The per-node hit predicate of `getNodeAt` (`GraphCanvas.tsx` lines
269-280): nodes with undefined position never hit; otherwise the node is
mapped to screen space and the pointer-to-node screen distance is
compared against `hitRadius + 5`.  The source compares
`Math.sqrt(dx*dx + dy*dy) < r + 5`; as `r + 5 > 0`, this is equivalent to
the squared comparison used here. -/
def nodeHit (w h : ℚ) (v : View) (px py : ℚ) (n : Node) : Bool :=
  match n.x, n.y with
  | some x, some y =>
    decide ((px - screenX w v x) ^ 2 + (py - screenY h v y) ^ 2
      < (hitRadius n v.k + 5) ^ 2)
  | _, _ => false

/-- `getNodeAt` (`GraphCanvas.tsx` lines 261-281): the first node, in
insertion order, hit by the pointer.  `px`, `py` are already
canvas-relative (the source subtracts the bounding rect first). -/
def getNodeAt (nodes : List Node) (w h : ℚ) (v : View) (px py : ℚ) : Option Node :=
  nodes.find? (nodeHit w h v px py)

/-- `find?` returns a satisfying element and everything before it fails
the predicate. -/
theorem find?_first {α : Type} (p : α → Bool) (l : List α) (a : α)
    (h : l.find? p = some a) :
    p a = true ∧ ∃ pre post, l = pre ++ a :: post ∧ ∀ m ∈ pre, p m = false := by
  induction l with
  | nil => cases h
  | cons b t ih =>
    by_cases hb : p b = true
    · rw [List.find?_cons_of_pos _ hb] at h
      cases h
      exact ⟨hb, [], t, rfl, by simp⟩
    · rw [List.find?_cons_of_neg _ hb] at h
      obtain ⟨hpa, pre, post, hsplit, hpre⟩ := ih h
      refine ⟨hpa, b :: pre, post, by rw [hsplit, List.cons_append], ?_⟩
      intro m hm
      rcases List.mem_cons.mp hm with rfl | hm
      · simpa using hb
      · exact hpre m hm

/-- A node whose rendered radius is inflated by a large author count:
base 8 (cited) plus the capped bonus 8, so it renders at radius 16 at
k = 1 while the hit test uses only 8. -/
def paperManyAuthors : Node :=
  { id := "paper", type := .cited, author_count := some 16, x := some 0, y := some 0 }

/-- C6 counterexample: on an 800×600 canvas at k = 1 with no pan, a
pointer 15 px from `paperManyAuthors` (drawn at radius 16) is well inside
the render radius plus the 5 px tolerance, yet `getNodeAt` reports no
node — the hit test's radius omits the author-count bonus (it allows only
8 + 5 = 13 px here). -/
theorem hit_test_radius_counterexample :
    (415 - screenX 800 ⟨1, 0, 0⟩ 0) ^ 2 + (300 - screenY 600 ⟨1, 0, 0⟩ 0) ^ 2
        < (renderRadius paperManyAuthors 1 + 5) ^ 2 ∧
    getNodeAt [paperManyAuthors] 800 600 ⟨1, 0, 0⟩ 415 300 = none := by
  constructor
  · norm_num [screenX, screenY, renderRadius, baseRadius, authorBonus, zoomRadiusScale,
      paperManyAuthors, min_def, max_def]
  · have hmiss : nodeHit 800 600 ⟨1, 0, 0⟩ 415 300 paperManyAuthors = false := by
      simp only [nodeHit, paperManyAuthors]
      rw [decide_eq_false_iff_not]
      norm_num [screenX, screenY, hitRadius, baseRadius, zoomRadiusScale, min_def, max_def]
    show List.find? _ [paperManyAuthors] = none
    rw [List.find?_cons_of_neg _ (by simp [hmiss]), List.find?_nil]

/-- C6 (amended): `getNodeAt` converts each node to screen space via the
viewport transform and returns the first node, in stable insertion order,
whose Euclidean screen distance to the pointer is strictly below the
zoom-scaled variant base radius — without the author-count bonus — plus
the fixed 5 px tolerance; it returns none exactly when no node qualifies. -/
theorem hit_test_spec (nodes : List Node) (w h : ℚ) (v : View) (px py : ℚ) :
    (getNodeAt nodes w h v px py = none ↔ ∀ n ∈ nodes, nodeHit w h v px py n = false) ∧
    (∀ n, nodeHit w h v px py n = true ↔
      ∃ x y, n.x = some x ∧ n.y = some y ∧
        (px - screenX w v x) ^ 2 + (py - screenY h v y) ^ 2
          < (hitRadius n v.k + 5) ^ 2) ∧
    (∀ n, getNodeAt nodes w h v px py = some n →
      nodeHit w h v px py n = true ∧
      ∃ pre post, nodes = pre ++ n :: post ∧ ∀ m ∈ pre, nodeHit w h v px py m = false) := by
  refine ⟨?_, ?_, ?_⟩
  · rw [getNodeAt, List.find?_eq_none]
    constructor
    · intro hall n hn
      simpa using hall n hn
    · intro hall n hn
      simp [hall n hn]
  · intro n
    cases hx : n.x with
    | none => simp [nodeHit, hx]
    | some x =>
      cases hy : n.y with
      | none => simp [nodeHit, hx, hy]
      | some y => simp [nodeHit, hx, hy]
  · intro n hn
    exact find?_first _ _ _ hn

/-- A pointer 5 px from `paperManyAuthors` is inside the 13 px hit
radius, so the singleton scan finds it. -/
theorem getNodeAt_demo_hit :
    getNodeAt [paperManyAuthors] 800 600 ⟨1, 0, 0⟩ 405 300 = some paperManyAuthors := by
  have hhit : nodeHit 800 600 ⟨1, 0, 0⟩ 405 300 paperManyAuthors = true := by
    simp only [nodeHit, paperManyAuthors]
    rw [decide_eq_true_eq]
    norm_num [screenX, screenY, hitRadius, baseRadius, zoomRadiusScale, min_def, max_def]
  exact List.find?_cons_of_pos _ hhit

/-- Witness for `hit_test_spec`: a pointer 5 px from `paperManyAuthors`
does hit, and the singleton list splits with an empty miss prefix. -/
theorem hit_test_spec_witness :
    nodeHit 800 600 ⟨1, 0, 0⟩ 405 300 paperManyAuthors = true ∧
    ∃ pre post, [paperManyAuthors] = pre ++ paperManyAuthors :: post ∧
      ∀ m ∈ pre, nodeHit 800 600 ⟨1, 0, 0⟩ 405 300 m = false :=
  (hit_test_spec [paperManyAuthors] 800 600 ⟨1, 0, 0⟩ 405 300).2.2
    paperManyAuthors getNodeAt_demo_hit

/-- The expansion-related store state: the single boolean
`isExpandingNode` and the `expandingNodeId` string (`lib/store.ts` lines
131-134), plus the log of expand requests actually issued
(`api.expandNode` calls). -/
structure ExpandState where
  isExpandingNode : Bool
  expandingNodeId : Option String
  requests : List String
deriving DecidableEq, Repr

/-- `handleClick` (`GraphCanvas.tsx` lines 326-349) in the case where the
hit test returned a node: the body runs only `if (node &&
!isExpandingNode)`; when it runs it raises the flag, records the node id
and issues the expand request. -/
def handleClickHit (s : ExpandState) (nodeId : String) : ExpandState :=
  if s.isExpandingNode then s
  else
    { isExpandingNode := true
      expandingNodeId := some nodeId
      requests := s.requests ++ [nodeId] }

/-- The `finally` block of `handleClick` (`GraphCanvas.tsx` lines
344-347), run when the expand response (or failure) arrives: clears the
flag and the recorded id. -/
def expandSettled (s : ExpandState) : ExpandState :=
  { s with isExpandingNode := false, expandingNodeId := none }

/-- C7 counterexample: while node "N" is awaiting its expand response
(flag raised), a click on the different node "M" changes nothing — no
expand request for "M" is issued, so unrelated nodes cannot be expanded
concurrently. -/
theorem expand_guard_counterexample :
    handleClickHit ⟨true, some "N", ["N"]⟩ "M" = ⟨true, some "N", ["N"]⟩ ∧
    ("M" : String) ≠ "N" := by
  decide

/-- C7 (amended): the re-entrancy guard is global, not per-node — while
any expand request is in flight no click issues a request for any node
(which in particular prevents a second request for the same node); when
no expansion is in flight, a click on a node issues exactly one request
for it, raises the flag and records its id. -/
theorem expand_guard_global (s : ExpandState) (nodeId : String) :
    (s.isExpandingNode = true → handleClickHit s nodeId = s) ∧
    (s.isExpandingNode = false →
      (handleClickHit s nodeId).requests = s.requests ++ [nodeId] ∧
      (handleClickHit s nodeId).isExpandingNode = true ∧
      (handleClickHit s nodeId).expandingNodeId = some nodeId) := by
  constructor
  · intro hflag
    simp [handleClickHit, hflag]
  · intro hflag
    simp [handleClickHit, hflag]

/-- Witness for `expand_guard_global` at concrete states: a click on "M"
while busy is dropped, and a click on "M" while idle issues the request. -/
theorem expand_guard_global_witness :
    handleClickHit ⟨true, some "N", ["N"]⟩ "M" = ⟨true, some "N", ["N"]⟩ ∧
    ((handleClickHit ⟨false, none, []⟩ "M").requests = [] ++ ["M"] ∧
      (handleClickHit ⟨false, none, []⟩ "M").isExpandingNode = true ∧
      (handleClickHit ⟨false, none, []⟩ "M").expandingNodeId = some "M") :=
  ⟨(expand_guard_global ⟨true, some "N", ["N"]⟩ "M").1 rfl,
    (expand_guard_global ⟨false, none, []⟩ "M").2 rfl⟩

/-- The d3-force simulation state the `PhysicsEngine` wraps: whether the
internal stepper is running, and the energy scalar alpha.  Modelled from
the d3-force documented semantics: `stop()` halts the stepper,
`restart()` restarts the stepper and nothing else, `alpha(a)` sets the
energy scalar. -/
structure SimState where
  running : Bool
  alpha : ℚ
deriving DecidableEq, Repr

/-- d3 `simulation.stop()`: stops the internal timer; alpha untouched. -/
def simStop (s : SimState) : SimState := { s with running := false }

/-- d3 `simulation.restart()`: restarts the internal timer; alpha
untouched (reheating requires an explicit `alpha(...)` call). -/
def simRestart (s : SimState) : SimState := { s with running := true }

/-- d3 `simulation.alpha(a)`: sets the energy scalar. -/
def simAlpha (s : SimState) (a : ℚ) : SimState := { s with alpha := a }

/-- `PhysicsEngine.stop` (`lib/physics`, store.ts part 2 lines 213-215):
`this.simulation.stop()`. -/
def peStop (s : SimState) : SimState := simStop s

/-- `PhysicsEngine.restart` (`lib/physics` lines 217-219):
`this.simulation.restart()` — no alpha call. -/
def peRestart (s : SimState) : SimState := simRestart s

/-- The simulation part of `PhysicsEngine.updateData` (`lib/physics`
line 170): `this.simulation.alpha(0.5).restart()`. -/
def peUpdateDataSim (s : SimState) : SimState := simRestart (simAlpha s (1 / 2))

/-- C8 counterexample: stop the simulation while alpha has decayed to
0.01 (as a pan or zoom interaction does), then call
`PhysicsEngine.restart`: the simulation is running again but alpha is
still 0.01 — far below even the "moderate" 0.3 used by `centerNode` —
so restart does not reset alpha to a high value and the layout does not
reheat. -/
theorem restart_no_reheat_counterexample :
    (peRestart (peStop ⟨true, 1 / 100⟩)).running = true ∧
    (peRestart (peStop ⟨true, 1 / 100⟩)).alpha = 1 / 100 ∧
    (peRestart (peStop ⟨true, 1 / 100⟩)).alpha < 3 / 10 := by
  refine ⟨rfl, rfl, ?_⟩
  norm_num [peRestart, peStop, simRestart, simStop]

/-- C8 (amended): `PhysicsEngine.restart` resumes ticking but leaves
alpha exactly as it was — in particular after a `stop()` entered for a
pan or zoom interaction, the subsequent `restart()` resumes with the old
alpha; alpha resets happen only in `updateData` (0.5) and `centerNode`
(0.3), not in `restart`. -/
theorem restart_resumes_without_reheat (s : SimState) :
    (peRestart s).running = true ∧
    (peRestart s).alpha = s.alpha ∧
    (peRestart (peStop s)).running = true ∧
    (peRestart (peStop s)).alpha = s.alpha ∧
    (peUpdateDataSim s).alpha = 1 / 2 :=
  ⟨rfl, rfl, rfl, rfl, rfl⟩

/-- Set the pin fields of the first node whose id matches: the source
`find`s the node object in `this.nodes` and writes its `fx`, `fy`
(`lib/physics` lines 184-196), which touches only the first match. -/
def setPin (nodeId : String) (pfx pfy : Option ℚ) : List Node → List Node
  | [] => []
  | n :: rest =>
    if n.id = nodeId then { n with fx := pfx, fy := pfy } :: rest
    else n :: setPin nodeId pfx pfy rest

/-- The `PhysicsEngine` working state: its `nodes` array and the wrapped
simulation. -/
structure PhysState where
  nodes : List Node
  sim : SimState
deriving DecidableEq, Repr

/-- The fixed unpin delay, the `1000` of the `setTimeout` in `centerNode`
(`lib/physics` line 196). -/
def unpinDelayMs : Nat := 1000

/-- `PhysicsEngine.centerNode` (`lib/physics` lines 183-198): if the id
resolves to a node, pin that node at the origin, set alpha to 0.3 and
restart, and schedule the unpin callback after `unpinDelayMs`; otherwise
do nothing.  The scheduled timeout is returned explicitly. -/
def centerNode (s : PhysState) (nodeId : String) :
    PhysState × Option (String × Nat) :=
  if s.nodes.any (fun n => n.id == nodeId) then
    ({ nodes := setPin nodeId (some 0) (some 0) s.nodes
       sim := simRestart (simAlpha s.sim (3 / 10)) },
      some (nodeId, unpinDelayMs))
  else (s, none)

/-- The `setTimeout` callback body of `centerNode` (`lib/physics` lines
191-196): clears `fx`, `fy` on the captured node. -/
def unpinFire (s : PhysState) (nodeId : String) : PhysState :=
  { s with nodes := setPin nodeId none none s.nodes }

/-- After `setPin`, the first node with the given id carries exactly the
written pin fields. -/
theorem setPin_find? (nodeId : String) (pfx pfy : Option ℚ) (l : List Node)
    (h : l.any (fun n => n.id == nodeId) = true) :
    ∃ n, (setPin nodeId pfx pfy l).find? (fun m => m.id == nodeId) = some n ∧
      n.fx = pfx ∧ n.fy = pfy := by
  induction l with
  | nil => cases h
  | cons a t ih =>
    by_cases ha : a.id = nodeId
    · refine ⟨{ a with fx := pfx, fy := pfy }, ?_, rfl, rfl⟩
      rw [setPin, if_pos ha]
      exact List.find?_cons_of_pos _ (by simp [ha])
    · rw [List.any_cons] at h
      have ht : t.any (fun n => n.id == nodeId) = true := by
        rcases Bool.or_eq_true_iff.mp h with hh | hh
        · exact absurd (by simpa using hh) ha
        · exact hh
      obtain ⟨n, hfind, hfx, hfy⟩ := ih ht
      refine ⟨n, ?_, hfx, hfy⟩
      rw [setPin, if_neg ha]
      rw [List.find?_cons_of_neg _ (by simp [ha])]
      exact hfind

/-- `setPin` does not change node ids, so id lookups keep succeeding. -/
theorem setPin_any (nodeId : String) (pfx pfy : Option ℚ) (l : List Node)
    (h : l.any (fun n => n.id == nodeId) = true) :
    (setPin nodeId pfx pfy l).any (fun n => n.id == nodeId) = true := by
  induction l with
  | nil => cases h
  | cons a t ih =>
    by_cases ha : a.id = nodeId
    · rw [setPin, if_pos ha, List.any_cons]
      simp [ha]
    · rw [List.any_cons] at h
      have ht : t.any (fun n => n.id == nodeId) = true := by
        rcases Bool.or_eq_true_iff.mp h with hh | hh
        · exact absurd (by simpa using hh) ha
        · exact hh
      rw [setPin, if_neg ha, List.any_cons, ih ht]
      simp

/-- C9: for a node id present in the working set, `centerNode`
immediately pins that node at the origin (fx = fy = 0), restarts the
simulation with alpha 0.3, and schedules the automatic unpin after
exactly 1000 ms; when that scheduled callback fires, the node's pin
fields are cleared again. -/
theorem centerNode_pin_then_unpin (s : PhysState) (nodeId : String)
    (h : ∃ n ∈ s.nodes, n.id = nodeId) :
    ∃ st, centerNode s nodeId = (st, some (nodeId, 1000)) ∧
      st.sim.alpha = 3 / 10 ∧ st.sim.running = true ∧
      (∃ n, st.nodes.find? (fun m => m.id == nodeId) = some n ∧
        n.fx = some 0 ∧ n.fy = some 0) ∧
      (∃ n, (unpinFire st nodeId).nodes.find? (fun m => m.id == nodeId) = some n ∧
        n.fx = none ∧ n.fy = none) := by
  have hany : s.nodes.any (fun n => n.id == nodeId) = true := by
    obtain ⟨n, hn, hid⟩ := h
    exact List.any_eq_true.mpr ⟨n, hn, by simp [hid]⟩
  rw [centerNode, if_pos hany]
  refine ⟨_, rfl, rfl, rfl, ?_, ?_⟩
  · exact setPin_find? nodeId (some 0) (some 0) s.nodes hany
  · exact setPin_find? nodeId none none _
      (setPin_any nodeId (some 0) (some 0) s.nodes hany)

/-- A minimal node and engine state for exercising `centerNode`. -/
def demoNode : Node := { id := "p", type := .cited }

/-- A `PhysicsEngine` state holding just `demoNode`. -/
def demoPhys : PhysState := { nodes := [demoNode], sim := { running := true, alpha := 1 } }

/-- Witness for `centerNode_pin_then_unpin` on the concrete engine state
`demoPhys` and node id "p". -/
theorem centerNode_pin_then_unpin_witness :
    ∃ st, centerNode demoPhys "p" = (st, some ("p", 1000)) ∧
      st.sim.alpha = 3 / 10 ∧ st.sim.running = true ∧
      (∃ n, st.nodes.find? (fun m => m.id == "p") = some n ∧
        n.fx = some 0 ∧ n.fy = some 0) ∧
      (∃ n, (unpinFire st "p").nodes.find? (fun m => m.id == "p") = some n ∧
        n.fx = none ∧ n.fy = none) :=
  centerNode_pin_then_unpin demoPhys "p" ⟨demoNode, List.mem_singleton.mpr rfl, rfl⟩

end Genesis
